import Mathlib

/-!
Shallow embedding of `src/SecretSanta.py` (the Secret Santa draw).

Modelling conventions:
* A Python `str` object is a `PyStr`: `id` is the object identity (what the
  `is` operator compares) and `val` the character content (what `==`
  compares).  Two distinct string objects may carry the same value.
* A `Person` carries the immutable attributes set by `Person.__init__`
  (`_name`, `_not_allowed`, `_email`); the mutable `_receiver` field is
  threaded separately as a `List (Option Person)` parallel to the roster,
  because the same `Person` objects are shared across draw attempts.
* `random.choice(seq)` draws a uniform index; the global random generator is
  modelled as an explicit stream of naturals (`List Nat`), one consumed per
  call, the drawn index being `r % len(seq)`.  An exhausted list behaves as
  a stream of zeros, matching the deterministic-function view of the source
  of randomness.
* Python exceptions that the interpreter itself raises (`IndexError` from
  `choice([])`, `TypeError` from a call with the wrong number of arguments)
  are an explicit `Except PyErr`.
* The file targets the Python-2 semantics the script is written in
  (`map` returns a list, i.e. a fresh list sharing the same elements).
-/

/-- A Python string object: `id` is object identity (`is`), `val` the value (`==`). -/
structure PyStr where
  id : Nat
  val : String
deriving DecidableEq, Repr

/-- Exceptions raised by the Python interpreter while running the modelled code. -/
inductive PyErr where
  | indexError
  | typeError
deriving DecidableEq, Repr

/-- `Person.__init__` stores `_name`, `_not_allowed`, `_email` (the logger is
opaque and carries no data relevant to the draw).  `_receiver` starts as
`None` and is modelled separately (see module docstring). -/
structure Person where
  name : PyStr
  notAllowed : List String
  email : String
deriving DecidableEq, Repr

/-- `Person.__eq__`: `return self.name is person.name` — object identity of the
name strings, NOT value comparison. -/
def personEq (p q : Person) : Bool :=
  p.name.id == q.name.id

/-- `Person.isReceiverOK`: rejects the candidate when `receiver == self`
(via `personEq`) or when `receiver.name in self.notAllowed` (Python `in` on a
list of strings compares by value).  The Python body only logs otherwise;
the function is pure. -/
def isReceiverOK (self receiver : Person) : Bool :=
  if personEq receiver self then false
  else if self.notAllowed.contains receiver.name.val then false
  else true

/-- Arguments of a call to `Person(...)`. -/
inductive PyArg where
  | str (s : PyStr)
  | strList (l : List String)
  | loggerObj
deriving DecidableEq, Repr

/-- Calling `Person.__init__`: it declares exactly four required parameters
`(name, not_allowed, email, logger)` with no defaults; Python raises
`TypeError` when the argument list does not bind all of them. -/
def personInit (args : List PyArg) : Except PyErr Person :=
  match args with
  | [PyArg.str nm, PyArg.strList na, PyArg.str em, PyArg.loggerObj] =>
      Except.ok { name := nm, notAllowed := na, email := em.val }
  | _ => Except.error PyErr.typeError

/-- `Person.clone`: `return Person(self.name, self.notAllowed)` — a call with
two positional arguments. -/
def personClone (p : Person) : Except PyErr Person :=
  personInit [PyArg.str p.name, PyArg.strList p.notAllowed]

/-- `random.choice` on the non-empty list `p :: ps` with random draw `r`:
the element at index `r % len`. -/
def pyChoice (p : Person) (ps : List Person) (r : Nat) : Person :=
  (p :: ps).get ⟨r % (ps.length + 1), by
    simpa using Nat.mod_lt r (Nat.succ_pos ps.length)⟩

/-- Python `list.remove(ch)`: removes the first element `x` of the list with
`x == ch` (i.e. `personEq x ch`).  Python raises `ValueError` when no element
matches; in `Bucket.pick` the removed element was just drawn from the list,
so a match always exists and the `[]` branch is unreachable. -/
def pyRemove (pool : List Person) (ch : Person) : List Person :=
  match pool with
  | [] => []
  | p :: ps => if personEq p ch then ps else p :: pyRemove ps ch

/-- Outcome of `Bucket.pick` for one giver: either a receiver was assigned
(`giver.assignReceiver(ch)` ran and `ch` was removed from the pool) or the
giver was declared stuck (`count > self._len + 1` fired with no assignment). -/
inductive PickOutcome where
  | assigned (receiver : Person)
  | stuck
deriving DecidableEq, Repr

/-- Result of `Bucket.pick`: the outcome, the candidate pool it returns, the
final value of the local `count`, and the unconsumed random stream. -/
structure PickResult where
  outcome : PickOutcome
  pool : List Person
  count : Nat
  stream : List Nat
deriving DecidableEq, Repr

/-- The `while not pick` loop inside `Bucket.pick`.  Each iteration draws
`ch = choice(list)`, tests `giver.isReceiverOK(ch)`, on success assigns and
removes, increments `count`, and returns early (stuck) once the incremented
`count` exceeds `self._len + 1`.  `remaining` counts the iterations left
before that guard fires: the loop is entered with `count = 0` and
`remaining = len + 1`, and the guard `count > len + 1` fires exactly when an
iteration starts with `remaining = 0`. -/
def pickLoop (giver : Person) (pool : List Person) (stream : List Nat)
    (count remaining : Nat) : Except PyErr PickResult :=
  match pool with
  | [] => Except.error PyErr.indexError
  | p :: ps =>
    if isReceiverOK giver (pyChoice p ps (stream.headD 0)) then
      Except.ok ⟨PickOutcome.assigned (pyChoice p ps (stream.headD 0)),
        pyRemove (p :: ps) (pyChoice p ps (stream.headD 0)), count + 1, stream.tail⟩
    else
      match remaining with
      | 0 => Except.ok ⟨PickOutcome.stuck, p :: ps, count + 1, stream.tail⟩
      | r + 1 => pickLoop giver (p :: ps) stream.tail (count + 1) r

/-- `Bucket.pick(giver, list)` where `glen` is `self._len`, the length of the
original list fixed in `Bucket.__init__`. -/
def pick (glen : Nat) (giver : Person) (pool : List Person) (stream : List Nat) :
    Except PyErr PickResult :=
  pickLoop giver pool stream 0 (glen + 1)

/-- State after running the `for person in self._original_list` loop of
`Bucket.draw` over a suffix of the roster: the receiver fields of those
givers, the remaining candidate pool, the unconsumed stream, and (ghost
observation) how many givers were declared stuck. -/
structure AttemptState where
  recvs : List (Option Person)
  pool : List Person
  stream : List Nat
  stuckCount : Nat
deriving DecidableEq, Repr

/-- The `for person in self._original_list: list = self.pick(person, list)`
loop of `Bucket.draw`.  `oldRecvs` holds the receiver fields the givers carry
when the attempt starts (they survive from earlier attempts because the
`Person` objects are shared); a stuck giver keeps its old field, an assigned
giver's field is overwritten. -/
def drawLoop (glen : Nat) (givers : List Person) (oldRecvs : List (Option Person))
    (pool : List Person) (stream : List Nat) : Except PyErr AttemptState :=
  match givers with
  | [] => Except.ok ⟨[], pool, stream, 0⟩
  | g :: gs =>
    match pick glen g pool stream with
    | Except.error e => Except.error e
    | Except.ok res =>
      match drawLoop glen gs oldRecvs.tail res.pool res.stream with
      | Except.error e => Except.error e
      | Except.ok st =>
        match res.outcome with
        | PickOutcome.assigned ch =>
            Except.ok ⟨some ch :: st.recvs, st.pool, st.stream, st.stuckCount⟩
        | PickOutcome.stuck =>
            Except.ok ⟨oldRecvs.headD none :: st.recvs, st.pool, st.stream, st.stuckCount + 1⟩

/-- Result of one `Bucket.draw` call: `result = len(list) == 0`, plus the
receiver state, unconsumed stream, and the ghost stuck counter. -/
structure DrawResult where
  result : Bool
  recvs : List (Option Person)
  stream : List Nat
  stuckCount : Nat
deriving DecidableEq, Repr

/-- `Bucket.draw`: copies the original list (`map(lambda x: x, ...)` — a new
list sharing the same `Person` objects), picks for every giver in roster
order, and returns `len(list) == 0`. -/
def draw (roster : List Person) (recvs : List (Option Person)) (stream : List Nat) :
    Except PyErr DrawResult :=
  match drawLoop roster.length roster recvs roster stream with
  | Except.error e => Except.error e
  | Except.ok st => Except.ok ⟨decide (st.pool.length = 0), st.recvs, st.stream, st.stuckCount⟩

/-- The `while not valid_draw: valid_draw = self.draw()` loop of
`Bucket.__init__`.  The source has no attempt ceiling; `attempts` is fuel for
observing finitely many iterations: `ok none` means the loop is still running
after that many draws, `ok (some d)` that some draw returned `True`. -/
def bucketLoop (roster : List Person) (recvs : List (Option Person))
    (stream : List Nat) : Nat → Except PyErr (Option DrawResult)
  | 0 => Except.ok none
  | n + 1 =>
    match draw roster recvs stream with
    | Except.error e => Except.error e
    | Except.ok d => if d.result then Except.ok (some d) else bucketLoop roster d.recvs d.stream n

/-- The sequence of attempt results observed while the bucket loop runs
(one `Bool` per completed `Bucket.draw` call, up to the given fuel). -/
def attemptTrace (roster : List Person) (recvs : List (Option Person))
    (stream : List Nat) : Nat → List Bool
  | 0 => []
  | n + 1 =>
    match draw roster recvs stream with
    | Except.error _ => []
    | Except.ok d => d.result :: (if d.result then [] else attemptTrace roster d.recvs d.stream n)

/-- One JSON record of the input file: `{"name": ..., "not_allowed": [...], "email": ...}`. -/
structure Record where
  name : String
  notAllowed : List String
  email : String
deriving DecidableEq, Repr

/-- `Lottery.__init__`'s `map(lambda x: Person(x['name'], x['not_allowed'],
x['email'], self._logger), peopleList)`: every record becomes a `Person`,
with no validation of any kind; `json.load` builds a fresh string object per
parsed name, modelled by giving record `i` the name object id `i`. -/
def loadPeople : Nat → List Record → List Person
  | _, [] => []
  | i, r :: rs =>
    { name := ⟨i, r.name⟩, notAllowed := r.notAllowed, email := r.email } :: loadPeople (i + 1) rs

/-- `Lottery.__init__` after loading: construct the people and run the bucket
(the draw starts as soon as the `Bucket` is created).  Every `_receiver`
starts as `None`. -/
def lotteryRun (records : List Record) (stream : List Nat) (attempts : Nat) :
    Except PyErr (Option DrawResult) :=
  bucketLoop (loadPeople 0 records) (List.replicate records.length none) stream attempts

/-- The participants of a roster carry pairwise distinct name objects — the
situation `Lottery` always produces (one fresh string object per record). -/
def NoDupIds (l : List Person) : Prop :=
  l.Pairwise (fun p q => p.name.id ≠ q.name.id)

instance (l : List Person) : Decidable (NoDupIds l) := by
  unfold NoDupIds
  exact List.instDecidablePairwise l

/-! Concrete participants used in witnesses and counterexamples. -/

/-- Participant A with no exclusions. -/
def pA : Person := { name := ⟨0, "A"⟩, notAllowed := [], email := "a@x" }

/-- Participant B with no exclusions. -/
def pB : Person := { name := ⟨1, "B"⟩, notAllowed := [], email := "b@x" }

/-- Participant C with no exclusions. -/
def pC : Person := { name := ⟨2, "C"⟩, notAllowed := [], email := "c@x" }

/-- Three participants, no exclusions. -/
def roster3 : List Person := [pA, pB, pC]

/-- A excluding B, for the mutual-exclusion pair. -/
def qA : Person := { name := ⟨0, "A"⟩, notAllowed := ["B"], email := "a@x" }

/-- B excluding A, for the mutual-exclusion pair. -/
def qB : Person := { name := ⟨1, "B"⟩, notAllowed := ["A"], email := "b@x" }

/-- Two participants each excluding the other: the always-infeasible input. -/
def roster2 : List Person := [qA, qB]

/-- A excluding both B and C (so A's pick can never succeed). -/
def sA : Person := { name := ⟨0, "A"⟩, notAllowed := ["B", "C"], email := "a@x" }

/-- B with no exclusions (fresh name object). -/
def sB : Person := { name := ⟨1, "B"⟩, notAllowed := [], email := "b@x" }

/-- C with no exclusions (fresh name object). -/
def sC : Person := { name := ⟨2, "C"⟩, notAllowed := [], email := "c@x" }

/-- Roster whose first giver always gets stuck while the rest can match. -/
def rosterS : List Person := [sA, sB, sC]

/-- Record whose exclusion list names "Zorro", an identity not in the set. -/
def recA : Record := { name := "A", notAllowed := ["Zorro"], email := "a@x" }

/-- Plain record B. -/
def recB : Record := { name := "B", notAllowed := [], email := "b@x" }

/-- Plain record C. -/
def recC : Record := { name := "C", notAllowed := [], email := "c@x" }

/-- Input with a dangling exclusion reference. -/
def recsZ : List Record := [recA, recB, recC]

/-- The person `Lottery` builds from `recA` (exclusion list still naming "Zorro"). -/
def zA : Person := { name := ⟨0, "A"⟩, notAllowed := ["Zorro"], email := "a@x" }

/-- A second participant named "A": the name has the same value as `pA.name`
but is a different string object (as two equal strings parsed separately from
JSON are). -/
def pA2 : Person := { name := ⟨7, "A"⟩, notAllowed := [], email := "a2@x" }

/-! ### Helper lemmas -/

lemma pyChoice_mem (p : Person) (ps : List Person) (r : Nat) :
    pyChoice p ps r ∈ p :: ps :=
  List.get_mem _ _ _

lemma personEq_self (p : Person) : personEq p p = true := by
  simp [personEq]

lemma noDupIds_cons {p : Person} {ps : List Person} :
    NoDupIds (p :: ps) ↔ (∀ q ∈ ps, p.name.id ≠ q.name.id) ∧ NoDupIds ps :=
  List.pairwise_cons

lemma noDupIds_sublist {l₁ l₂ : List Person} (h : List.Sublist l₁ l₂)
    (hnd : NoDupIds l₂) : NoDupIds l₁ :=
  List.Pairwise.sublist h hnd

lemma pyRemove_sublist (pool : List Person) (ch : Person) :
    List.Sublist (pyRemove pool ch) pool := by
  induction pool with
  | nil => simp [pyRemove]
  | cons p ps ih =>
    simp only [pyRemove]
    split
    · exact List.sublist_cons_self p ps
    · exact ih.cons₂ p

lemma pyRemove_length (pool : List Person) (ch : Person) (h : ch ∈ pool) :
    (pyRemove pool ch).length + 1 = pool.length := by
  induction pool with
  | nil => simp at h
  | cons p ps ih =>
    simp only [pyRemove]
    split
    · simp
    · next hne =>
      have hch : ch ∈ ps := by
        rcases List.mem_cons.mp h with h1 | h1
        · subst h1; simp [personEq_self] at hne
        · exact h1
      simp only [List.length_cons, ih hch]

lemma pyRemove_perm (pool : List Person) (ch : Person) (h : ch ∈ pool)
    (hnd : NoDupIds pool) : pool.Perm (ch :: pyRemove pool ch) := by
  induction pool with
  | nil => simp at h
  | cons p ps ih =>
    rcases noDupIds_cons.mp hnd with ⟨hp, hps⟩
    simp only [pyRemove]
    split
    · next heq =>
      have hpch : p = ch := by
        rcases List.mem_cons.mp h with h1 | h1
        · exact h1.symm
        · exfalso
          simp only [personEq, beq_iff_eq] at heq
          exact hp ch h1 heq
      subst hpch
      exact List.Perm.refl _
    · next hne =>
      have hch : ch ∈ ps := by
        rcases List.mem_cons.mp h with h1 | h1
        · subst h1; simp [personEq_self] at hne
        · exact h1
      exact ((ih hch hps).cons p).trans (List.Perm.swap ch p _)

lemma isReceiverOK_iff (g c : Person) :
    isReceiverOK g c = true ↔
      c.name.id ≠ g.name.id ∧ g.notAllowed.contains c.name.val = false := by
  by_cases h1 : c.name.id = g.name.id
  · simp [isReceiverOK, personEq, h1]
  · by_cases h2 : g.notAllowed.contains c.name.val = true
    · simp [isReceiverOK, personEq, h1, h2]
    · simp [isReceiverOK, personEq, h1, h2]

lemma pickLoop_ok (giver : Person) :
    ∀ (remaining : Nat) (pool : List Person) (stream : List Nat) (count : Nat)
      (res : PickResult),
      pickLoop giver pool stream count remaining = Except.ok res →
      (res.outcome = PickOutcome.stuck ∧ res.pool = pool) ∨
      (∃ ch, res.outcome = PickOutcome.assigned ch ∧ ch ∈ pool ∧
        isReceiverOK giver ch = true ∧ res.pool = pyRemove pool ch) := by
  intro remaining
  induction remaining with
  | zero =>
    intro pool stream count res h
    cases pool with
    | nil => simp [pickLoop] at h
    | cons p ps =>
      simp only [pickLoop] at h
      split at h
      · next hok =>
        simp only [Except.ok.injEq] at h
        subst h
        exact Or.inr ⟨pyChoice p ps (stream.headD 0), rfl, pyChoice_mem p ps _, hok, rfl⟩
      · simp only [Except.ok.injEq] at h
        subst h
        exact Or.inl ⟨rfl, rfl⟩
  | succ r ih =>
    intro pool stream count res h
    cases pool with
    | nil => simp [pickLoop] at h
    | cons p ps =>
      simp only [pickLoop] at h
      split at h
      · next hok =>
        simp only [Except.ok.injEq] at h
        subst h
        exact Or.inr ⟨pyChoice p ps (stream.headD 0), rfl, pyChoice_mem p ps _, hok, rfl⟩
      · exact ih (p :: ps) stream.tail (count + 1) res h

lemma pickLoop_stuck_count (giver : Person) :
    ∀ (remaining : Nat) (pool : List Person) (stream : List Nat) (count : Nat)
      (res : PickResult),
      pickLoop giver pool stream count remaining = Except.ok res →
      res.outcome = PickOutcome.stuck → res.count = count + remaining + 1 := by
  intro remaining
  induction remaining with
  | zero =>
    intro pool stream count res h hstuck
    cases pool with
    | nil => simp [pickLoop] at h
    | cons p ps =>
      simp only [pickLoop] at h
      split at h
      · simp only [Except.ok.injEq] at h
        subst h
        simp at hstuck
      · simp only [Except.ok.injEq] at h
        subst h
        rfl
  | succ r ih =>
    intro pool stream count res h hstuck
    cases pool with
    | nil => simp [pickLoop] at h
    | cons p ps =>
      simp only [pickLoop] at h
      split at h
      · simp only [Except.ok.injEq] at h
        subst h
        simp at hstuck
      · have := ih (p :: ps) stream.tail (count + 1) res h hstuck
        omega

lemma pickLoop_rejected (giver : Person) :
    ∀ (remaining : Nat) (pool : List Person) (stream : List Nat) (count : Nat),
      pool ≠ [] → (∀ ch ∈ pool, isReceiverOK giver ch = false) →
      pickLoop giver pool stream count remaining =
        Except.ok ⟨PickOutcome.stuck, pool, count + remaining + 1, stream.drop (remaining + 1)⟩ := by
  intro remaining
  induction remaining with
  | zero =>
    intro pool stream count hne hrej
    cases pool with
    | nil => exact absurd rfl hne
    | cons p ps =>
      simp only [pickLoop, hrej _ (pyChoice_mem p ps (stream.headD 0)),
        Bool.false_eq_true, if_false, Except.ok.injEq]
      exact congrArg _ (List.drop_one stream).symm
  | succ r ih =>
    intro pool stream count hne hrej
    cases pool with
    | nil => exact absurd rfl hne
    | cons p ps =>
      simp only [pickLoop, hrej _ (pyChoice_mem p ps (stream.headD 0)),
        Bool.false_eq_true, if_false]
      rw [ih (p :: ps) stream.tail (count + 1) (by simp) hrej]
      have h1 : count + 1 + r + 1 = count + (r + 1) + 1 := by omega
      have h2 : stream.tail.drop (r + 1) = stream.drop (r + 1 + 1) := by
        rw [← List.drop_one stream, List.drop_drop]
        exact congrArg (fun k => List.drop k stream) (by omega)
      rw [h1, h2]

lemma pick_ok (glen : Nat) (giver : Person) (pool : List Person) (stream : List Nat)
    (res : PickResult) (h : pick glen giver pool stream = Except.ok res) :
    (res.outcome = PickOutcome.stuck ∧ res.pool = pool) ∨
    (∃ ch, res.outcome = PickOutcome.assigned ch ∧ ch ∈ pool ∧
      isReceiverOK giver ch = true ∧ res.pool = pyRemove pool ch) := by
  unfold pick at h
  exact pickLoop_ok giver (glen + 1) pool stream 0 res h

lemma drawLoop_counts (glen : Nat) :
    ∀ (givers : List Person) (oldRecvs : List (Option Person)) (pool : List Person)
      (stream : List Nat) (st : AttemptState),
      drawLoop glen givers oldRecvs pool stream = Except.ok st →
      pool.length + st.stuckCount ≤ st.pool.length + givers.length ∧
      st.pool.length ≤ pool.length := by
  intro givers
  induction givers with
  | nil =>
    intro oldRecvs pool stream st h
    simp only [drawLoop, Except.ok.injEq] at h
    subst h
    simp
  | cons g gs ih =>
    intro oldRecvs pool stream st h
    simp only [drawLoop] at h
    cases hp : pick glen g pool stream with
    | error e => simp only [hp] at h; exact Except.noConfusion h
    | ok res =>
      simp only [hp] at h
      cases hd : drawLoop glen gs oldRecvs.tail res.pool res.stream with
      | error e => simp only [hd] at h; exact Except.noConfusion h
      | ok st2 =>
        simp only [hd] at h
        have hrec := ih oldRecvs.tail res.pool res.stream st2 hd
        rcases pick_ok glen g pool stream res hp with ⟨hstuck, hpool⟩ |
          ⟨ch, hasn, hmem, hok, hpool⟩
        · simp only [hstuck, Except.ok.injEq] at h
          subst h
          rw [hpool] at hrec
          simp only [List.length_cons]
          omega
        · simp only [hasn, Except.ok.injEq] at h
          subst h
          rw [hpool] at hrec
          have hlen := pyRemove_length pool ch hmem
          simp only [List.length_cons]
          omega

lemma drawLoop_success (glen : Nat) :
    ∀ (givers : List Person) (oldRecvs : List (Option Person)) (pool : List Person)
      (stream : List Nat) (st : AttemptState),
      drawLoop glen givers oldRecvs pool stream = Except.ok st →
      st.stuckCount = 0 → NoDupIds pool →
      List.Forall₂ (fun g e => ∃ ch, e = some ch ∧ ch ∈ pool ∧ isReceiverOK g ch = true)
        givers st.recvs ∧
      pool.Perm (st.recvs.filterMap id ++ st.pool) := by
  intro givers
  induction givers with
  | nil =>
    intro oldRecvs pool stream st h hsc hnd
    simp only [drawLoop, Except.ok.injEq] at h
    subst h
    exact ⟨List.Forall₂.nil, by simp⟩
  | cons g gs ih =>
    intro oldRecvs pool stream st h hsc hnd
    simp only [drawLoop] at h
    cases hp : pick glen g pool stream with
    | error e => simp only [hp] at h; exact Except.noConfusion h
    | ok res =>
      simp only [hp] at h
      cases hd : drawLoop glen gs oldRecvs.tail res.pool res.stream with
      | error e => simp only [hd] at h; exact Except.noConfusion h
      | ok st2 =>
        simp only [hd] at h
        rcases pick_ok glen g pool stream res hp with ⟨hstuck, hpool⟩ |
          ⟨ch, hasn, hmem, hok, hpool⟩
        · simp only [hstuck, Except.ok.injEq] at h
          subst h
          simp at hsc
        · simp only [hasn, Except.ok.injEq] at h
          subst h
          have hnd2 : NoDupIds (pyRemove pool ch) :=
            noDupIds_sublist (pyRemove_sublist pool ch) hnd
          rw [hpool] at hd
          have hrec := ih oldRecvs.tail (pyRemove pool ch) res.stream st2 hd hsc hnd2
          constructor
          · refine List.Forall₂.cons ⟨ch, rfl, hmem, hok⟩ ?_
            refine hrec.1.imp ?_
            rintro a b ⟨ch2, hb, hmem2, hok2⟩
            exact ⟨ch2, hb, (pyRemove_sublist pool ch).subset hmem2, hok2⟩
          · refine (pyRemove_perm pool ch hmem hnd).trans ?_
            simpa using hrec.2.cons ch

lemma pick_stuck_count (glen : Nat) (giver : Person) (pool : List Person)
    (stream : List Nat) (res : PickResult)
    (h : pick glen giver pool stream = Except.ok res)
    (hstuck : res.outcome = PickOutcome.stuck) : res.count = glen + 2 := by
  unfold pick at h
  have := pickLoop_stuck_count giver (glen + 1) pool stream 0 res h hstuck
  omega

lemma draw_roster2 (recvs : List (Option Person)) (stream : List Nat) :
    draw roster2 recvs stream =
      Except.ok ⟨false, [recvs.headD none, recvs.tail.headD none], stream.drop 8, 2⟩ := by
  have hA : pick 2 qA [qA, qB] stream =
      Except.ok ⟨PickOutcome.stuck, [qA, qB], 4, stream.drop 4⟩ :=
    pickLoop_rejected qA 3 [qA, qB] stream 0 (by simp) (by decide)
  have hB : pick 2 qB [qA, qB] (stream.drop 4) =
      Except.ok ⟨PickOutcome.stuck, [qA, qB], 4, stream.drop 8⟩ := by
    have h0 := pickLoop_rejected qB 3 [qA, qB] (stream.drop 4) 0 (by simp) (by decide)
    rw [List.drop_drop] at h0
    exact h0
  have hdl : drawLoop 2 [qA, qB] recvs [qA, qB] stream =
      Except.ok ⟨[recvs.headD none, recvs.tail.headD none], [qA, qB], stream.drop 8, 2⟩ := by
    simp only [drawLoop, hA, hB, List.tail_cons]
  have hfin : draw roster2 recvs stream =
      match drawLoop 2 [qA, qB] recvs [qA, qB] stream with
      | Except.error e => Except.error e
      | Except.ok st =>
          Except.ok ⟨decide (st.pool.length = 0), st.recvs, st.stream, st.stuckCount⟩ := rfl
  rw [hfin, hdl]
  rfl

/-! ### Claim theorems -/

/-- Claim C1: whenever `Bucket.draw` returns `True`, the resulting receiver
assignment is valid — every roster member has a receiver drawn from the
roster, nobody receives from themselves, no receiver's name is in the giver's
exclusion list, and the multiset of receivers is exactly the roster
(a bijection).  The hypothesis `NoDupIds roster` states that the
participants carry pairwise distinct name objects, which is how `Lottery`
always builds them. -/
theorem draw_true_gives_valid_assignment
    (roster : List Person) (recvs : List (Option Person)) (stream : List Nat)
    (d : DrawResult) (hnd : NoDupIds roster)
    (h : draw roster recvs stream = Except.ok d) (hres : d.result = true) :
    List.Forall₂
      (fun g e => ∃ ch, e = some ch ∧ ch ∈ roster ∧ ch.name.id ≠ g.name.id ∧
        g.notAllowed.contains ch.name.val = false) roster d.recvs ∧
    (d.recvs.filterMap id).Perm roster := by
  unfold draw at h
  cases hd : drawLoop roster.length roster recvs roster stream with
  | error e => simp only [hd] at h; exact Except.noConfusion h
  | ok st =>
    simp only [hd, Except.ok.injEq] at h
    subst h
    have hpool : st.pool = [] := by
      have h0 : decide (st.pool.length = 0) = true := hres
      exact List.length_eq_zero.mp (of_decide_eq_true h0)
    have hc := drawLoop_counts roster.length roster recvs roster stream st hd
    have hsc : st.stuckCount = 0 := by
      rw [hpool] at hc
      simp at hc
      omega
    have hs := drawLoop_success roster.length roster recvs roster stream st hd hsc hnd
    constructor
    · refine hs.1.imp ?_
      rintro g e ⟨ch, he, hmem, hok⟩
      rcases (isReceiverOK_iff g ch).mp hok with ⟨hid, hcont⟩
      exact ⟨ch, he, hmem, hid, hcont⟩
    · have := hs.2
      rw [hpool, List.append_nil] at this
      exact this.symm

/-- Witness for C1: the three-person roster with no exclusions and random
draws `[1, 1, 0]` succeeds with the cycle A→B→C→A, and the theorem applies. -/
theorem draw_true_gives_valid_assignment_witness :
    NoDupIds roster3 ∧
    (List.Forall₂
      (fun g e => ∃ ch, e = some ch ∧ ch ∈ roster3 ∧ ch.name.id ≠ g.name.id ∧
        g.notAllowed.contains ch.name.val = false) roster3
      [some pB, some pC, some pA] ∧
    (([some pB, some pC, some pA] : List (Option Person)).filterMap id).Perm roster3) :=
  ⟨by decide,
    draw_true_gives_valid_assignment roster3 [none, none, none] [1, 1, 0]
      ⟨true, [some pB, some pC, some pA], [], 0⟩ (by decide) rfl rfl⟩

/-- Claim C2 (behaviour at the failing input): on the two-participant input
where each excludes the other, every `Bucket.draw` attempt fails and the
`while not valid_draw` loop of `Bucket.__init__` never exits: after any
number of attempts, with any random stream and any receiver state, the loop
is still running (`Except.ok none`).  The code has no attempt bound and no
`AssignmentInfeasibleError`; it simply never terminates on this input. -/
theorem bucket_never_terminates_on_mutual_exclusion :
    ∀ (attempts : Nat) (recvs : List (Option Person)) (stream : List Nat),
      bucketLoop roster2 recvs stream attempts = Except.ok none := by
  intro attempts
  induction attempts with
  | zero => intro recvs stream; rfl
  | succ n ih =>
    intro recvs stream
    simp only [bucketLoop, draw_roster2, Bool.false_eq_true, if_false]
    exact ih _ _

/-- Claim C3 counterexample: on the roster where the first giver excludes
everyone, the first attempt fails (`result = false`) but leaves the second
and third givers' receiver fields set (`[none, some sA, some sB]`), and the
bucket loop hands exactly that state to the next attempt — the receiver
value `some sA`, set during the failed attempt, is still present when the
next attempt starts.  No reset or cloning happens anywhere between
attempts. -/
theorem residue_survives_failed_attempt_cex :
    draw rosterS [none, none, none] [0, 0, 0, 0, 0, 0, 0] =
      Except.ok ⟨false, [none, some sA, some sB], [], 1⟩ ∧
    bucketLoop rosterS [none, none, none] [0, 0, 0, 0, 0, 0, 0] 2 =
      bucketLoop rosterS [none, some sA, some sB] [] 1 ∧
    ([none, some sA, some sB] : List (Option Person)).get? 1 = some (some sA) :=
  ⟨rfl, rfl, rfl⟩

/-- Claim C3 amended: no reset happens between attempts — the next attempt
starts with exactly the receiver state the failed attempt left behind
(`Bucket.draw` copies only the list container; the `Person` objects and
their `receiver` fields are shared across attempts). -/
theorem next_attempt_starts_with_failed_state
    (roster : List Person) (recvs : List (Option Person)) (stream : List Nat)
    (a : Nat) (d : DrawResult) (h : draw roster recvs stream = Except.ok d)
    (hres : d.result = false) :
    bucketLoop roster recvs stream (a + 1) = bucketLoop roster d.recvs d.stream a := by
  simp only [bucketLoop, h, hres, Bool.false_eq_true, if_false]

/-- Witness for the amended C3 at the concrete failing run. -/
theorem next_attempt_starts_with_failed_state_witness :
    draw rosterS [none, none, none] [0, 0, 0, 0, 0, 0, 0] =
      Except.ok ⟨false, [none, some sA, some sB], [], 1⟩ ∧
    bucketLoop rosterS [none, none, none] [0, 0, 0, 0, 0, 0, 0] (1 + 1) =
      bucketLoop rosterS [none, some sA, some sB] [] 1 :=
  ⟨rfl, next_attempt_starts_with_failed_state rosterS [none, none, none]
    [0, 0, 0, 0, 0, 0, 0] 1 ⟨false, [none, some sA, some sB], [], 1⟩ rfl rfl⟩

/-- Claim C4 counterexample: a giver whose candidate pool has shrunk to one
person (`[pC]`, poolSize = 1) in a bucket built over three people
(`self._len = 3`) makes 5 rejected draws before being declared stuck —
exceeding the claimed bound poolSize + 2 = 3.  This state is reached, e.g.,
as the third giver of `roster3` after the first two picks consumed `pB` and
`pA`. -/
theorem stuck_bound_exceeds_poolsize_cex :
    pick 3 pC [pC] [0, 0, 0, 0, 0] =
      Except.ok ⟨PickOutcome.stuck, [pC], 5, []⟩ ∧
    ¬ (5 ≤ ([pC] : List Person).length + 2) :=
  ⟨rfl, by decide⟩

/-- Claim C4 amended: a giver is declared stuck after exactly `_len + 2`
rejected draws, where `_len` is the size of the full original roster fixed
in `Bucket.__init__` — not the size of the candidate pool at the start of
this giver's search. -/
theorem stuck_after_rosterlen_plus_two
    (glen : Nat) (giver : Person) (pool : List Person) (stream : List Nat)
    (res : PickResult) (h : pick glen giver pool stream = Except.ok res)
    (hstuck : res.outcome = PickOutcome.stuck) : res.count = glen + 2 :=
  pick_stuck_count glen giver pool stream res h hstuck

/-- Witness for the amended C4: the concrete stuck pick makes 3 + 2 draws. -/
theorem stuck_after_rosterlen_plus_two_witness :
    pick 3 pC [pC] [0, 0, 0, 0, 0] =
      Except.ok ⟨PickOutcome.stuck, [pC], 5, []⟩ ∧
    (⟨PickOutcome.stuck, [pC], 5, []⟩ : PickResult).count = 3 + 2 :=
  ⟨rfl, stuck_after_rosterlen_plus_two 3 pC [pC] [0, 0, 0, 0, 0]
    ⟨PickOutcome.stuck, [pC], 5, []⟩ rfl rfl⟩

/-- Claim C5 counterexample: in the run over `rosterS`, the first giver `sA`
is declared stuck (`stuckCount = 1`, its receiver entry still `none`), yet
the attempt is not abandoned: the two later givers are still processed and
matched (`some sA`, `some sB`) within the same attempt. -/
theorem attempt_continues_after_stuck_cex :
    draw rosterS [none, none, none] [0, 0, 0, 0, 0, 0, 0] =
      Except.ok ⟨false, [none, some sA, some sB], [], 1⟩ ∧
    ([none, some sA, some sB] : List (Option Person)).get? 1 = some (some sA) ∧
    ([none, some sA, some sB] : List (Option Person)).get? 2 = some (some sB) :=
  ⟨rfl, rfl, rfl⟩

/-- Claim C5 amended: once any giver is declared stuck the attempt can no
longer succeed — `Bucket.draw` necessarily returns `False` and the engine
restarts — but the loop does not abandon the attempt immediately: the
remaining givers keep drawing and may be matched before the attempt ends. -/
theorem stuck_forces_failed_attempt
    (roster : List Person) (recvs : List (Option Person)) (stream : List Nat)
    (d : DrawResult) (h : draw roster recvs stream = Except.ok d)
    (hsc : 1 ≤ d.stuckCount) : d.result = false := by
  unfold draw at h
  cases hd : drawLoop roster.length roster recvs roster stream with
  | error e => simp only [hd] at h; exact Except.noConfusion h
  | ok st =>
    simp only [hd, Except.ok.injEq] at h
    subst h
    have hc := drawLoop_counts roster.length roster recvs roster stream st hd
    simp only at hsc
    have hne : st.pool.length ≠ 0 := by omega
    simpa using decide_eq_false hne

/-- Witness for the amended C5 at the concrete stuck run. -/
theorem stuck_forces_failed_attempt_witness :
    draw rosterS [none, none, none] [0, 0, 0, 0, 0, 0, 0] =
      Except.ok ⟨false, [none, some sA, some sB], [], 1⟩ ∧
    (1 : Nat) ≤ (⟨false, [none, some sA, some sB], [], 1⟩ : DrawResult).stuckCount ∧
    (⟨false, [none, some sA, some sB], [], 1⟩ : DrawResult).result = false :=
  ⟨rfl, by decide,
    stuck_forces_failed_attempt rosterS [none, none, none] [0, 0, 0, 0, 0, 0, 0]
      ⟨false, [none, some sA, some sB], [], 1⟩ rfl (by decide)⟩

/-- Claim C6: `isReceiverOK` accepts a candidate exactly when the candidate
is a different participant and its name value is not in the giver's
exclusion list.  The hypothesis says the two name strings are the same
object exactly when they are equal as values — true whenever participants
carry unique names, as the data model requires (without it the `is`-based
equality of C7 deviates).  Purity holds by construction: the embedding is a
`Bool`-valued function of the two persons, matching the source, whose body
only logs. -/
theorem isReceiverOK_value_spec (g c : Person)
    (h : g.name.id = c.name.id ↔ g.name.val = c.name.val) :
    isReceiverOK g c = true ↔
      (c.name.val ≠ g.name.val ∧ g.notAllowed.contains c.name.val = false) := by
  rw [isReceiverOK_iff]
  constructor
  · rintro ⟨hid, hcont⟩
    refine ⟨fun hv => hid ?_, hcont⟩
    exact (h.mpr hv.symm).symm
  · rintro ⟨hv, hcont⟩
    refine ⟨fun hid2 => hv ?_, hcont⟩
    exact (h.mp hid2.symm).symm

/-- Witness for C6 at two concrete distinct participants. -/
theorem isReceiverOK_value_spec_witness :
    (pA.name.id = pB.name.id ↔ pA.name.val = pB.name.val) ∧
    (isReceiverOK pA pB = true ↔
      (pB.name.val ≠ pA.name.val ∧ pA.notAllowed.contains pB.name.val = false)) :=
  ⟨by decide, isReceiverOK_value_spec pA pB (by decide)⟩

/-- Claim C7 (behaviour at the failing input): `Person.__eq__` compares the
name strings with `is` (object identity), not by value: two participants
whose names are distinct string objects with the same value "A" compare
unequal, contradicting value-based identity comparison. -/
theorem person_eq_is_not_value_based :
    pA.name.val = pA2.name.val ∧ personEq pA pA2 = false := by
  exact ⟨rfl, rfl⟩

/-- Claim C8 counterexample: the input `recsZ` contains a record whose
exclusion list names "Zorro", an identity not in the participant set; yet
loading succeeds, no error of any kind is raised, a draw attempt is
performed and even completes successfully.  The source has no
`MalformedInputError` and performs no validation. -/
theorem dangling_exclusion_accepted_cex :
    (recsZ.map Record.name).contains "Zorro" = false ∧
    lotteryRun recsZ [1, 1, 0] 1 =
      Except.ok (some ⟨true, [some pB, some pC, some zA], [], 0⟩) :=
  ⟨by decide, rfl⟩

/-- Claim C8 amended: `Lottery.__init__` performs no validation at all —
every record is turned into a participant verbatim (dangling exclusion names
included) and the draw proceeds immediately. -/
theorem load_performs_no_validation (records : List Record) (i : Nat) :
    (loadPeople i records).map (fun p => (p.name.val, p.notAllowed, p.email)) =
      records.map (fun r => (r.name, r.notAllowed, r.email)) := by
  induction records generalizing i with
  | nil => rfl
  | cons r rs ih => simp [loadPeople, ih]

/-- Claim C9: the engine is deterministic once the randomness is fixed — the
embedding threads the random source explicitly (the only nondeterminism in
the source is `random.choice`'s use of the global generator), so two runs on
the same ordered participant records with the same sequence of random draws
produce the same attempt trace and the same final result. -/
theorem engine_deterministic_given_stream
    (rec1 rec2 : List Record) (s1 s2 : List Nat) (n : Nat)
    (h1 : rec1 = rec2) (h2 : s1 = s2) :
    attemptTrace (loadPeople 0 rec1) (List.replicate rec1.length none) s1 n =
      attemptTrace (loadPeople 0 rec2) (List.replicate rec2.length none) s2 n ∧
    lotteryRun rec1 s1 n = lotteryRun rec2 s2 n := by
  subst h1
  subst h2
  exact ⟨rfl, rfl⟩

/-- Witness for C9 at a concrete input and stream. -/
theorem engine_deterministic_given_stream_witness :
    recsZ = recsZ ∧ ([1, 1, 0] : List Nat) = [1, 1, 0] ∧
    (attemptTrace (loadPeople 0 recsZ) (List.replicate recsZ.length none) [1, 1, 0] 1 =
      attemptTrace (loadPeople 0 recsZ) (List.replicate recsZ.length none) [1, 1, 0] 1 ∧
    lotteryRun recsZ [1, 1, 0] 1 = lotteryRun recsZ [1, 1, 0] 1) :=
  ⟨rfl, rfl, engine_deterministic_given_stream recsZ recsZ [1, 1, 0] [1, 1, 0] 1 rfl rfl⟩

/-- Claim C10: `Person.clone` always raises `TypeError`: it calls the
`Person` constructor with two positional arguments while `Person.__init__`
requires four (`name, not_allowed, email, logger`), so the advertised
receiver-cleared copy is unusable for every person. -/
theorem clone_always_raises_type_error (p : Person) :
    personClone p = Except.error PyErr.typeError := rfl
